import Mathlib

/-!
# Verification of the AppMesh backend of this moto fork

Shallow embedding of `src/moto/appmesh/models.py` (class `AppMeshBackend` and
dataclass `Mesh`) together with the pagination helper contract of the spec
(the helper itself, `moto.utilities.paginator`, is not part of the given
sources).

Modelling conventions:
* Python `datetime.now()` values are modelled as `Nat` ticks supplied as an
  explicit `now` argument to each operation that reads the clock.
* `uuid4()` and the STS caller identity (`get_caller_identity`, an external
  collaborator) are likewise explicit arguments of `create_mesh`.
* The backend's `self.meshes` dict is an association list `List (String × Mesh)`
  in insertion order, which is exactly the iteration order of a Python dict;
  assigning to an existing key keeps its position, which `dictInsert` mirrors.
* Python exceptions are modelled with `Except`; since a Python exception does
  not roll back earlier mutations, stateful operations return the post-state
  alongside the `Except` result.
* The `status` field: the dataclass annotation in the source says
  `Dict[Literal["status"], str]`, but `create_mesh` actually stores the bare
  string `"ACTIVE"`.  We therefore model the field as a sum `StatusVal` of a
  Python string and a Python dict, so that the dynamic-typing behaviour of
  `delete_mesh`'s `status["status"] = "DELETED"` line (a `TypeError` on a
  string) is derived rather than assumed.
-/

namespace AppMesh

/-- Python runtime exceptions that the embedded operations can raise. -/
inductive PyErr where
  /-- `MeshNotFoundError(mesh_name)` from `moto.appmesh.exceptions`. -/
  | meshNotFound : String → PyErr
  /-- `TypeError`, e.g. item assignment on a `str`. -/
  | typeError : PyErr
  /-- `AttributeError`, e.g. calling a method the object does not have. -/
  | attributeError : PyErr
  deriving Repr, DecidableEq

/-- The value stored in `Mesh.status`: the source's type annotation promises a
dict `{"status": ...}`, while `create_mesh` stores the bare string `"ACTIVE"`,
so the model keeps both possibilities apart. -/
inductive StatusVal where
  /-- A Python `str` value. -/
  | pystr : String → StatusVal
  /-- A Python dict with string keys and values, in insertion order. -/
  | pydict : List (String × String) → StatusVal
  deriving Repr, DecidableEq

/-- `d.get(k)` on a Python dict with string keys and values. -/
def dictGet (d : List (String × String)) (k : String) : Option String :=
  match d with
  | [] => none
  | (k', v) :: rest => if k' = k then some v else dictGet rest k

/-- `d[k] = v` on a Python string dict: replaces in place, else appends. -/
def dictSet (d : List (String × String)) (k v : String) : List (String × String) :=
  match d with
  | [] => [(k, v)]
  | (k', v') :: rest => if k' = k then (k, v) :: rest else (k', v') :: dictSet rest k v

/-- The `metadata` dict built by `create_mesh` (keys `arn`, `created_at`,
`last_updated_at`, `mesh_owner`, `uid`, `version`). -/
structure Metadata where
  arn : String
  created_at : Nat
  last_updated_at : Nat
  mesh_owner : String
  uid : String
  version : Nat
  deriving Repr, DecidableEq

/-- The inner `{"ip_preference": ...}` dict of the stored spec. -/
structure ServiceDiscoveryBlock where
  ip_preference : Option String
  deriving Repr, DecidableEq

/-- The internal `spec` dict of a stored `Mesh`: key `egress_filter` holds the
request's `egressFilter` value verbatim (possibly `None`), key
`service_discovery` holds an `{"ip_preference": ...}` dict (the outer `Option`
allows the `None` the annotation `Optional[Dict[...]]` permits, though both
`create_mesh` and `update_mesh` always store a dict there). -/
structure SpecInternal where
  egress_filter : Option (List (String × String))
  service_discovery : Option ServiceDiscoveryBlock
  deriving Repr, DecidableEq

/-- A request-side mesh spec, as decoded from the wire body: an optional
`egressFilter` dict and an optional `serviceDiscovery` dict. -/
structure SpecRequest where
  egressFilter : Option (List (String × String))
  serviceDiscovery : Option (List (String × String))
  deriving Repr, DecidableEq

/-- The `Mesh` dataclass of `src/moto/appmesh/models.py`. -/
structure Mesh where
  mesh_name : String
  metadata : Metadata
  spec : SpecInternal
  status : StatusVal
  tags : List (List (String × String))
  deriving Repr, DecidableEq

/-- `self.meshes[k]` lookup (`k in self.meshes` is `(dictLookup st k).isSome`). -/
def dictLookup (st : List (String × Mesh)) (k : String) : Option Mesh :=
  match st with
  | [] => none
  | (k', v) :: rest => if k' = k then some v else dictLookup rest k

/-- `self.meshes[k] = v` on the backend's dict: an existing key keeps its
position (Python dict semantics), a new key is appended at the end. -/
def dictInsert (st : List (String × Mesh)) (k : String) (v : Mesh) :
    List (String × Mesh) :=
  match st with
  | [] => [(k, v)]
  | (k', v') :: rest => if k' = k then (k, v) :: rest else (k', v') :: dictInsert rest k v

/-- `del self.meshes[k]`. -/
def dictErase (st : List (String × Mesh)) (k : String) : List (String × Mesh) :=
  match st with
  | [] => []
  | (k', v') :: rest => if k' = k then rest else (k', v') :: dictErase rest k

/-- The `AppMeshBackend` object: region, account, and the `meshes` dict. -/
structure AppMeshBackend where
  region_name : String
  account_id : String
  meshes : List (String × Mesh)
  deriving Repr, DecidableEq

/-- `AppMeshBackend.create_mesh`.  `user_id` is the STS caller identity, `now`
the value of `datetime.now()` and `uid` the value of `uuid4()`, all external
inputs of the call.  The method never raises: it builds a fresh `Mesh` with
`version = 1` and status string `"ACTIVE"` and assigns it to
`self.meshes[mesh_name]` without any duplicate check. -/
def create_mesh (b : AppMeshBackend) (user_id : String) (now : Nat) (uid : String)
    (client_token : Option String) (mesh_name : String) (spec : SpecRequest)
    (tags : List (List (String × String))) : Mesh × AppMeshBackend :=
  let _ := client_token
  let service_discovery := spec.serviceDiscovery.getD []
  let mesh : Mesh :=
    { mesh_name := mesh_name
      spec :=
        { egress_filter := spec.egressFilter
          service_discovery := some { ip_preference := dictGet service_discovery "ipPreference" } }
      status := .pystr "ACTIVE"
      metadata :=
        { arn := "arn:aws:appmesh:" ++ b.region_name ++ ":" ++ b.account_id ++ ":" ++ mesh_name
          created_at := now
          last_updated_at := now
          mesh_owner := user_id
          uid := uid
          version := 1 }
      tags := tags }
  (mesh, { b with meshes := dictInsert b.meshes mesh_name mesh })

/-- `AppMeshBackend.update_mesh`.  Raises `MeshNotFoundError` when the name is
absent.  The Python guard `if spec:` is false for both `None` and an empty
dict, which the `Option` models as `none`; a truthy dict is `some sr`.  In the
truthy branch the stored record's `spec` entries are overwritten (not merged),
`last_updated_at` is set to `now` and `version` incremented; the mutated
record is also the returned one.  With a falsy `spec` the record is returned
untouched. -/
def update_mesh (b : AppMeshBackend) (now : Nat) (client_token : Option String)
    (mesh_name : String) (spec : Option SpecRequest) :
    Except PyErr Mesh × AppMeshBackend :=
  let _ := client_token
  match dictLookup b.meshes mesh_name with
  | none => (.error (.meshNotFound mesh_name), b)
  | some m =>
    match spec with
    | none => (.ok m, b)
    | some sr =>
      let m2 : Mesh :=
        { m with
          spec :=
            { egress_filter := sr.egressFilter
              service_discovery :=
                some { ip_preference := dictGet (sr.serviceDiscovery.getD []) "ipPreference" } }
          metadata :=
            { m.metadata with last_updated_at := now, version := m.metadata.version + 1 } }
      (.ok m2, { b with meshes := dictInsert b.meshes mesh_name m2 })

/-- `AppMeshBackend.describe_mesh`: raises `MeshNotFoundError` when the name is
absent, otherwise returns the stored record.  The `mesh_owner` parameter is
never read by the body.  The method performs no mutation, hence no post-state
in the result type. -/
def describe_mesh (b : AppMeshBackend) (mesh_name : String) (mesh_owner : String) :
    Except PyErr Mesh :=
  let _ := mesh_owner
  match dictLookup b.meshes mesh_name with
  | none => .error (.meshNotFound mesh_name)
  | some m => .ok m

/-- `AppMeshBackend.delete_mesh`.  Raises `MeshNotFoundError` when the name is
absent.  Otherwise the line `self.meshes[mesh_name].status["status"] =
"DELETED"` is executed: when `status` holds a string (what `create_mesh`
stores) item assignment on a `str` raises `TypeError` before any mutation;
when it holds a dict the assignment mutates the record, after which
`self.meshes[mesh_name].copy()` raises `AttributeError` (the dataclass `Mesh`
defines no `copy` method), leaving the mutated record in the store because a
Python exception does not undo the assignment.  In both cases the `del` line
is never reached. -/
def delete_mesh (b : AppMeshBackend) (mesh_name : String) :
    Except PyErr Mesh × AppMeshBackend :=
  match dictLookup b.meshes mesh_name with
  | none => (.error (.meshNotFound mesh_name), b)
  | some m =>
    match m.status with
    | .pystr _ => (.error .typeError, b)
    | .pydict d =>
      let m2 : Mesh := { m with status := .pydict (dictSet d "status" "DELETED") }
      (.error .attributeError, { b with meshes := dictInsert b.meshes mesh_name m2 })

/-- `AppMeshBackend.list_meshes` body: `[mesh for mesh in self.meshes.values()]`,
the stored records in dict (= insertion) order. -/
def list_meshes (b : AppMeshBackend) : List Mesh :=
  b.meshes.map Prod.snd

/-- The backend states reachable through the public API from a freshly
constructed backend (`__init__` sets `self.meshes = dict()`). -/
inductive Reachable : AppMeshBackend → Prop where
  | init (region account : String) :
      Reachable { region_name := region, account_id := account, meshes := [] }
  | create {b} (user_id : String) (now : Nat) (uid : String) (ct : Option String)
      (name : String) (sp : SpecRequest) (tg : List (List (String × String))) :
      Reachable b → Reachable (create_mesh b user_id now uid ct name sp tg).2
  | update {b} (now : Nat) (ct : Option String) (name : String)
      (sp : Option SpecRequest) :
      Reachable b → Reachable (update_mesh b now ct name sp).2
  | delete {b} (name : String) :
      Reachable b → Reachable (delete_mesh b name).2

/-! ## Pagination helper (modelled from the spec)

`list_meshes` in the source is wrapped by `@paginate(pagination_model=
PAGINATION_MODEL)`; the helper itself lives in `moto.utilities.paginator`,
which is not among the given sources, so it is modelled from the spec's
contract (§4.2): cursor after the last-returned unique-attribute value,
default limit when absent, ValidationError on a non-positive limit,
InvalidToken on a stale token, absent next token on the terminal page.  For
`list_meshes` the `PAGINATION_MODEL` entry sets `limit_default = 100` and
`unique_attribute = "mesh_name"`. -/

/-- Pagination failures named by the spec's error taxonomy (§7). -/
inductive PagErr where
  | invalidToken : PagErr
  | validationError : PagErr
  deriving Repr, DecidableEq

/-- Modelled from the spec: limit resolution of the `moto.utilities.paginator`
helper (not under the given sources) — an absent caller limit falls back to
the configured default (100 for `list_meshes`); a limit of 0 or negative
fails with ValidationError. -/
def resolveLimit (limitArg : Option Int) : Except PagErr Nat :=
  match limitArg with
  | none => .ok 100
  | some l => if l ≤ 0 then .error .validationError else .ok l.toNat

/-- Modelled from the spec: cursor decoding of the `moto.utilities.paginator`
helper (not under the given sources) — an absent token starts at the
beginning; a token is the unique attribute (`mesh_name` for `list_meshes`) of
the last item of the previous page and selects the position right after that
item in the collection's fixed iteration order; a token naming no item fails
with InvalidToken. -/
def startFrom (items : List Mesh) (token : Option String) : Except PagErr Nat :=
  match token with
  | none => .ok 0
  | some t =>
    let i := items.findIdx (fun m => m.mesh_name == t)
    if i < items.length then .ok (i + 1) else .error .invalidToken

/-- Modelled from the spec: `paginate(collection, token, limit) -> (page,
next_token)` of `moto.utilities.paginator` (not under the given sources) —
the page is the next `limit` items of the collection in its fixed iteration
order starting at the cursor position; `next_token` is the unique attribute of
the last item of the page while items remain, and absent on the terminal
page. -/
def paginateSpec (items : List Mesh) (token : Option String) (limitArg : Option Int) :
    Except PagErr (List Mesh × Option String) :=
  match resolveLimit limitArg with
  | .error e => .error e
  | .ok limit =>
    match startFrom items token with
    | .error e => .error e
    | .ok start =>
      let page := (items.drop start).take limit
      .ok (page,
        if start + limit < items.length then page.getLast?.map Mesh.mesh_name else none)

/-- Drives the helper the way the spec's pagination property reads: start from
the given token, pass each returned `next_token` to the next call and
concatenate the pages; `none` when a call fails or the fuel runs out. -/
def collectPages (items : List Mesh) (limitArg : Option Int) :
    Nat → Option String → Option (List Mesh)
  | 0, _ => none
  | fuel + 1, token =>
    match paginateSpec items token limitArg with
    | .error _ => none
    | .ok (page, none) => some page
    | .ok (page, some t) => (collectPages items limitArg fuel (some t)).map (page ++ ·)

/-- All pages, chained from an absent initial token; `items.length + 1` calls
always suffice because every page advances the cursor by at least one item. -/
def collectAll (items : List Mesh) (limitArg : Option Int) : Option (List Mesh) :=
  collectPages items limitArg (items.length + 1) none

/-! ## Concrete states for the closed check theorems -/

/-- An empty request spec (`{"egressFilter": None, "serviceDiscovery": None}`
keys absent). -/
def emptySpecReq : SpecRequest :=
  { egressFilter := none, serviceDiscovery := none }

/-- A handcrafted stored mesh record, used to build concrete store states. -/
def demoMesh (name : String) (version : Nat)
    (egress : Option (List (String × String))) : Mesh :=
  { mesh_name := name
    metadata :=
      { arn := "arn:aws:appmesh:us-east-1:123456789012:" ++ name
        created_at := 1
        last_updated_at := 1
        mesh_owner := "caller-1"
        uid := "uid-0"
        version := version }
    spec := { egress_filter := egress, service_discovery := some { ip_preference := none } }
    status := .pystr "ACTIVE"
    tags := [] }

/-- A fresh backend, as `__init__` builds it. -/
def freshB : AppMeshBackend :=
  { region_name := "us-east-1", account_id := "123456789012", meshes := [] }

/-- The record created by one `create_mesh "m1"` call on a fresh backend. -/
def demoB1Mesh : Mesh :=
  (create_mesh freshB "caller-1" 3 "uid-1" none "m1" emptySpecReq []).1

/-- The backend reached by one `create_mesh "m1"` call on a fresh backend. -/
def demoB1 : AppMeshBackend :=
  (create_mesh freshB "caller-1" 3 "uid-1" none "m1" emptySpecReq []).2

/-- The backend reached by `create_mesh "m1"` then `create_mesh "m2"`. -/
def demoB2 : AppMeshBackend :=
  (create_mesh demoB1 "caller-1" 4 "uid-2" none "m2" emptySpecReq []).2

/-- The backend reached by one `create_mesh "meshA"` call on a fresh backend. -/
def demoB6 : AppMeshBackend :=
  (create_mesh freshB "caller-1" 5 "uid-3" none "meshA" emptySpecReq []).2

/-- The backend reached by one `create_mesh "m2"` call on a fresh backend. -/
def demoB7 : AppMeshBackend :=
  (create_mesh freshB "caller-1" 6 "uid-4" none "m2" emptySpecReq []).2

/-- Store with a single mesh `"m1"` at version 1. -/
def ceMesh1 : Mesh := demoMesh "m1" 1 none

/-- Store with a single mesh `"m1"` whose metadata version is 5. -/
def ceMesh5 : Mesh := demoMesh "m1" 5 none

/-- Store record `"m1"` with a populated `egress_filter`. -/
def ceMeshEg : Mesh := demoMesh "m1" 1 (some [("type", "DROP_ALL")])

/-- Backend whose store is exactly `{"m1": ceMesh1}`. -/
def ceB1 : AppMeshBackend :=
  { region_name := "us-east-1", account_id := "123456789012", meshes := [("m1", ceMesh1)] }

/-- Backend whose store is exactly `{"m1": ceMesh5}`. -/
def ceB4 : AppMeshBackend :=
  { region_name := "us-east-1", account_id := "123456789012", meshes := [("m1", ceMesh5)] }

/-- Backend whose store is exactly `{"m1": ceMeshEg}`. -/
def ceB5 : AppMeshBackend :=
  { region_name := "us-east-1", account_id := "123456789012", meshes := [("m1", ceMeshEg)] }

/-- Projects a successful result's stored `egress_filter`; `none` on an
exception. -/
def egressOfResult (e : Except PyErr Mesh) : Option (Option (List (String × String))) :=
  match e with
  | .ok m => some m.spec.egress_filter
  | .error _ => none

/-! ## Store lemmas -/

theorem dictLookup_dictInsert_self (st : List (String × Mesh)) (k : String) (v : Mesh) :
    dictLookup (dictInsert st k v) k = some v := by
  induction st with
  | nil => simp [dictInsert, dictLookup]
  | cons p rest ih =>
    obtain ⟨k', v'⟩ := p
    by_cases h : k' = k
    · simp [dictInsert, dictLookup, h]
    · simp [dictInsert, dictLookup, h, ih]

theorem mem_of_dictLookup {st : List (String × Mesh)} {k : String} {m : Mesh}
    (h : dictLookup st k = some m) : (k, m) ∈ st := by
  induction st with
  | nil => simp [dictLookup] at h
  | cons p rest ih =>
    obtain ⟨k', v'⟩ := p
    by_cases hk : k' = k
    · subst hk
      simp [dictLookup] at h
      subst h
      exact List.mem_cons_self _ _
    · simp [dictLookup, hk] at h
      exact List.mem_cons_of_mem _ (ih h)

theorem keys_dictInsert (st : List (String × Mesh)) (k : String) (v : Mesh) :
    ((dictInsert st k v).map Prod.fst = st.map Prod.fst ∧ k ∈ st.map Prod.fst) ∨
    ((dictInsert st k v).map Prod.fst = st.map Prod.fst ++ [k] ∧ k ∉ st.map Prod.fst) := by
  induction st with
  | nil => right; simp [dictInsert]
  | cons p rest ih =>
    obtain ⟨k', v'⟩ := p
    by_cases hk : k' = k
    · left
      subst hk
      simp [dictInsert]
    · rcases ih with ⟨e, hm⟩ | ⟨e, hnm⟩
      · left
        constructor
        · simp [dictInsert, hk, e]
        · simp [hm]
      · right
        constructor
        · simp [dictInsert, hk, e]
        · simp only [List.map_cons, List.mem_cons]
          rintro (h | h)
          · exact hk h.symm
          · exact hnm h

theorem keys_nodup_dictInsert {st : List (String × Mesh)} {k : String} {v : Mesh}
    (h : (st.map Prod.fst).Nodup) : ((dictInsert st k v).map Prod.fst).Nodup := by
  rcases keys_dictInsert st k v with ⟨e, _⟩ | ⟨e, hnm⟩
  · exact e ▸ h
  · rw [e]
    simp only [List.nodup_append, List.nodup_cons, List.nodup_nil, List.disjoint_singleton]
    exact ⟨h, by simp, hnm⟩

theorem forall_mem_dictInsert {P : String × Mesh → Prop} {st : List (String × Mesh)}
    {k : String} {v : Mesh} (hall : ∀ p ∈ st, P p) (hv : P (k, v)) :
    ∀ p ∈ dictInsert st k v, P p := by
  induction st with
  | nil => simpa [dictInsert] using hv
  | cons q rest ih =>
    obtain ⟨k', v'⟩ := q
    by_cases hk : k' = k
    · simp only [dictInsert, if_pos hk]
      intro p hp
      rcases List.mem_cons.mp hp with h | h
      · exact h ▸ hv
      · exact hall p (List.mem_cons_of_mem _ h)
    · simp only [dictInsert, if_neg hk]
      intro p hp
      rcases List.mem_cons.mp hp with h | h
      · exact hall p (h ▸ List.mem_cons_self _ _)
      · exact ih (fun q hq => hall q (List.mem_cons_of_mem _ hq)) p h

/-! ## Reachable-state invariant -/

/-- Well-formedness of a backend state: mesh names are unique dict keys, every
stored record carries its own key as `mesh_name`, and every stored record's
status is the string `"ACTIVE"` that `create_mesh` wrote. -/
def StateWF (b : AppMeshBackend) : Prop :=
  (b.meshes.map Prod.fst).Nodup ∧
    ∀ p ∈ b.meshes, p.2.mesh_name = p.1 ∧ p.2.status = StatusVal.pystr "ACTIVE"

theorem reachable_wf {b : AppMeshBackend} (h : Reachable b) : StateWF b := by
  induction h with
  | init region account => exact ⟨by simp, by simp⟩
  | create user_id now uid ct name sp tg _ ih =>
    refine ⟨keys_nodup_dictInsert ih.1, ?_⟩
    exact forall_mem_dictInsert ih.2 ⟨rfl, rfl⟩
  | update now ct name sp _ ih =>
    rename_i b' _
    cases hl : dictLookup b'.meshes name with
    | none => simpa [update_mesh, hl] using ih
    | some m =>
      cases sp with
      | none => simpa [update_mesh, hl] using ih
      | some sr =>
        have hm := ih.2 (name, m) (mem_of_dictLookup hl)
        refine ⟨?_, ?_⟩
        · simpa [update_mesh, hl] using keys_nodup_dictInsert ih.1
        · simp only [update_mesh, hl]
          exact forall_mem_dictInsert ih.2 ⟨hm.1, hm.2⟩
  | delete name _ ih =>
    rename_i b' _
    cases hl : dictLookup b'.meshes name with
    | none => simpa [delete_mesh, hl] using ih
    | some m =>
      have hm := ih.2 (name, m) (mem_of_dictLookup hl)
      cases hs : m.status with
      | pystr s => simpa [delete_mesh, hl, hs] using ih
      | pydict d => exact absurd (hm.2.trans rfl) (by simp [hs])

theorem getLast?_take_eq {l : List Mesh} {n : Nat} (h1 : 1 ≤ n) (h2 : n ≤ l.length) :
    (l.take n).getLast? = l[n - 1]? := by
  rw [List.getLast?_eq_getElem?, List.length_take, Nat.min_eq_left h2]
  exact List.getElem?_take_of_lt (by omega)

theorem findIdx_name_getElem {items : List Mesh}
    (hnd : (items.map Mesh.mesh_name).Nodup) (k : Nat) (hk : k < items.length) :
    items.findIdx (fun m => m.mesh_name == items[k].mesh_name) = k := by
  induction items generalizing k with
  | nil => simp at hk
  | cons x xs ih =>
    simp only [List.map_cons, List.nodup_cons] at hnd
    cases k with
    | zero => simp [List.findIdx_cons]
    | succ j =>
      have hj : j < xs.length := by simpa using hk
      have hmem : xs[j].mesh_name ∈ xs.map Mesh.mesh_name :=
        List.mem_map_of_mem _ (List.getElem_mem hj)
      have hne : (x.mesh_name == (x :: xs)[j + 1].mesh_name) = false := by
        simp only [List.getElem_cons_succ, beq_eq_false_iff_ne, ne_eq]
        intro he
        exact hnd.1 (he ▸ hmem)
      rw [List.findIdx_cons, hne, cond_false]
      simp only [List.getElem_cons_succ]
      rw [ih hnd.2 j hj]

theorem collectPages_drop {items : List Mesh} {limit : Nat} {lo : Option Int}
    (hnd : (items.map Mesh.mesh_name).Nodup) (hl : 1 ≤ limit)
    (hres : resolveLimit lo = .ok limit) :
    ∀ fuel start token, startFrom items token = .ok start →
      items.length ≤ start + fuel * limit → 1 ≤ fuel →
      collectPages items lo fuel token = some (items.drop start) := by
  intro fuel
  induction fuel with
  | zero => intro start token _ _ hf; omega
  | succ f ih =>
    intro start token htok hbound _
    rw [Nat.succ_mul] at hbound
    by_cases hc : start + limit < items.length
    · have hidx : start + limit - 1 < items.length := by omega
      have hlen : limit ≤ (items.drop start).length := by
        rw [List.length_drop]; omega
      have hlast : ((items.drop start).take limit).getLast? = some items[start + limit - 1] := by
        rw [getLast?_take_eq hl hlen, List.getElem?_drop]
        have he : start + (limit - 1) = start + limit - 1 := by omega
        rw [he, List.getElem?_eq_getElem hidx]
      have hfind : startFrom items (some items[start + limit - 1].mesh_name) =
          .ok (start + limit) := by
        simp only [startFrom]
        rw [findIdx_name_getElem hnd _ hidx, if_pos hidx]
        congr 1
        omega
      have hf1 : 1 ≤ f := by
        rcases Nat.eq_zero_or_pos f with h0 | h1
        · subst h0; simp at hbound; omega
        · exact h1
      have hrec := ih (start + limit) (some items[start + limit - 1].mesh_name) hfind
        (by omega) hf1
      simp only [collectPages, paginateSpec, hres, htok, if_pos hc, hlast, Option.map_some']
      rw [hrec, Option.map_some']
      have hsplit : (items.drop start).take limit ++ items.drop (start + limit) =
          items.drop start := by
        rw [← List.drop_drop]
        exact List.take_append_drop limit (items.drop start)
      rw [hsplit]
    · have hrest : (items.drop start).length ≤ limit := by
        rw [List.length_drop]; omega
      simp only [collectPages, paginateSpec, hres, htok, if_neg hc]
      rw [List.take_of_length_le hrest]

theorem list_meshes_names_nodup {b : AppMeshBackend} (h : StateWF b) :
    ((list_meshes b).map Mesh.mesh_name).Nodup := by
  have he : (list_meshes b).map Mesh.mesh_name = b.meshes.map Prod.fst := by
    unfold list_meshes
    rw [List.map_map]
    exact List.map_congr_left fun p hp => (h.2 p hp).1
  rw [he]
  exact h.1

theorem demoB1_reachable : Reachable demoB1 :=
  Reachable.create "caller-1" 3 "uid-1" none "m1" emptySpecReq [] (Reachable.init _ _)

theorem demoB2_reachable : Reachable demoB2 :=
  Reachable.create "caller-1" 4 "uid-2" none "m2" emptySpecReq [] demoB1_reachable

theorem demoB7_reachable : Reachable demoB7 :=
  Reachable.create "caller-1" 6 "uid-4" none "m2" emptySpecReq [] (Reachable.init _ _)

/-! ## Claim theorems -/

/-- Claim C1 (counterexample): calling `update_mesh` with a falsy spec returns
the record with its version unchanged (here: still 1, not 2), refuting the
claim's "regardless of whether a spec argument was supplied" part. -/
theorem update_mesh_no_spec_no_bump :
    dictLookup ceB1.meshes "m1" = some ceMesh1 ∧
    ceMesh1.metadata.version = 1 ∧
    (update_mesh ceB1 9 none "m1" none).1 = Except.ok ceMesh1 :=
  ⟨rfl, rfl, rfl⟩

/-- Claim C1 (amended): for a mesh present in the store, `update_mesh` with a
truthy spec returns the record with version exactly one larger and a
`last_updated_at` (set to the call's clock value) not earlier than the prior
one; with a falsy spec the record is returned with version and timestamp
untouched. -/
theorem update_mesh_version_bump (b : AppMeshBackend) (name : String) (m : Mesh)
    (ct : Option String) (now : Nat)
    (hm : dictLookup b.meshes name = some m)
    (hnow : m.metadata.last_updated_at ≤ now) :
    (∀ sr : SpecRequest, ∃ m2 : Mesh,
        (update_mesh b now ct name (some sr)).1 = Except.ok m2 ∧
        m2.metadata.version = m.metadata.version + 1 ∧
        m.metadata.last_updated_at ≤ m2.metadata.last_updated_at) ∧
    (update_mesh b now ct name none).1 = Except.ok m := by
  constructor
  · intro sr
    simp only [update_mesh, hm]
    exact ⟨_, rfl, rfl, hnow⟩
  · simp [update_mesh, hm]

/-- Claim C1 (witness): the amended theorem applied to the concrete store
`ceB1` at clock 9. -/
theorem update_mesh_version_bump_witness :
    ∃ m2 : Mesh,
      (update_mesh ceB1 9 none "m1" (some emptySpecReq)).1 = Except.ok m2 ∧
      m2.metadata.version = ceMesh1.metadata.version + 1 ∧
      ceMesh1.metadata.last_updated_at ≤ m2.metadata.last_updated_at :=
  (update_mesh_version_bump ceB1 "m1" ceMesh1 none 9 rfl (by decide)).1 emptySpecReq

/-- Claim C2 (code bug): on the concrete reachable store holding the mesh
`"m1"` exactly as `create_mesh` built it, `delete_mesh "m1"` does not remove
the name: it raises `TypeError` (item assignment on the string status stored
by `create_mesh`) and leaves the store unchanged, so the delete-then-NotFound
contract of the spec is unreachable in this code. -/
theorem delete_mesh_typeerror_name_still_present :
    delete_mesh demoB1 "m1" = (Except.error PyErr.typeError, demoB1) ∧
    (dictLookup (delete_mesh demoB1 "m1").2.meshes "m1").isSome = true :=
  ⟨rfl, rfl⟩

/-- Claim C3: after any `create_mesh`, `describe_mesh` on the same name
returns precisely the created record, whose metadata version is 1. -/
theorem create_then_describe_version_one (b : AppMeshBackend) (user_id : String)
    (now : Nat) (uid : String) (ct : Option String) (name : String)
    (sp : SpecRequest) (tg : List (List (String × String))) (owner : String) :
    describe_mesh (create_mesh b user_id now uid ct name sp tg).2 name owner =
      Except.ok (create_mesh b user_id now uid ct name sp tg).1 ∧
    (create_mesh b user_id now uid ct name sp tg).1.metadata.version = 1 := by
  constructor
  · simp [describe_mesh, create_mesh, dictLookup_dictInsert_self]
  · rfl

/-- Claim C4 (counterexample): with `"m1"` already present at version 5,
`create_mesh "m1"` does not fail with AlreadyExists — it succeeds (its result
type has no error case) and the stored record changes to a fresh version-1
record, so the prior record is not left unchanged. -/
theorem create_mesh_overwrites_existing_record :
    dictLookup ceB4.meshes "m1" = some ceMesh5 ∧
    ceMesh5.metadata.version = 5 ∧
    (dictLookup (create_mesh ceB4 "caller-1" 7 "uid-9" none "m1" emptySpecReq []).2.meshes
        "m1").map (fun m => m.metadata.version) = some 1 :=
  ⟨rfl, rfl, rfl⟩

/-- Claim C4 (amended): `create_mesh` performs no duplicate check: when the
name is already present it succeeds and replaces the stored record with the
freshly built version-1 record. -/
theorem create_mesh_replaces_existing (b : AppMeshBackend) (user_id : String)
    (now : Nat) (uid : String) (ct : Option String) (name : String)
    (sp : SpecRequest) (tg : List (List (String × String)))
    (_present : (dictLookup b.meshes name).isSome = true) :
    dictLookup (create_mesh b user_id now uid ct name sp tg).2.meshes name =
      some (create_mesh b user_id now uid ct name sp tg).1 ∧
    (create_mesh b user_id now uid ct name sp tg).1.metadata.version = 1 := by
  refine ⟨?_, rfl⟩
  simp [create_mesh, dictLookup_dictInsert_self]

/-- Claim C4 (witness): the amended theorem at the concrete store `ceB4`,
where `"m1"` is present. -/
theorem create_mesh_replaces_existing_witness :
    dictLookup (create_mesh ceB4 "caller-1" 7 "uid-9" none "m1" emptySpecReq []).2.meshes "m1" =
      some (create_mesh ceB4 "caller-1" 7 "uid-9" none "m1" emptySpecReq []).1 ∧
    (create_mesh ceB4 "caller-1" 7 "uid-9" none "m1" emptySpecReq []).1.metadata.version = 1 :=
  create_mesh_replaces_existing ceB4 "caller-1" 7 "uid-9" none "m1" emptySpecReq [] rfl

/-- Claim C5 (counterexample): updating `"m1"` (whose stored `egress_filter`
is populated) with a spec that supplies only `serviceDiscovery` clears
`egress_filter` to `None` instead of preserving the prior value. -/
theorem update_mesh_clears_absent_field :
    ceMeshEg.spec.egress_filter = some [("type", "DROP_ALL")] ∧
    egressOfResult (update_mesh ceB5 9 none "m1"
        (some { egressFilter := none,
                serviceDiscovery := some [("ipPreference", "IPv4_ONLY")] })).1 = some none :=
  ⟨rfl, rfl⟩

/-- Claim C5 (amended): `update_mesh` with a truthy spec does not merge — it
replaces the whole stored spec block: `egress_filter` becomes the request's
`egressFilter` value (cleared to `None` when absent) and `service_discovery`
becomes a block holding exactly the request's `ipPreference`; the fields
outside the spec and the bumped metadata entries (name, status, tags,
`created_at`, `mesh_owner`, `uid`) keep their prior values. -/
theorem update_mesh_replaces_spec (b : AppMeshBackend) (name : String) (m : Mesh)
    (ct : Option String) (now : Nat) (sr : SpecRequest)
    (hm : dictLookup b.meshes name = some m) :
    ∃ m2 : Mesh, (update_mesh b now ct name (some sr)).1 = Except.ok m2 ∧
      m2.spec.egress_filter = sr.egressFilter ∧
      m2.spec.service_discovery =
        some { ip_preference := dictGet (sr.serviceDiscovery.getD []) "ipPreference" } ∧
      m2.mesh_name = m.mesh_name ∧ m2.status = m.status ∧ m2.tags = m.tags ∧
      m2.metadata.created_at = m.metadata.created_at ∧
      m2.metadata.mesh_owner = m.metadata.mesh_owner ∧
      m2.metadata.uid = m.metadata.uid := by
  simp only [update_mesh, hm]
  exact ⟨_, rfl, rfl, rfl, rfl, rfl, rfl, rfl, rfl, rfl⟩

/-- Claim C5 (witness): the amended theorem at the concrete store `ceB5` with
a request spec supplying only `serviceDiscovery`. -/
theorem update_mesh_replaces_spec_witness :
    ∃ m2 : Mesh, (update_mesh ceB5 9 none "m1"
        (some { egressFilter := none,
                serviceDiscovery := some [("ipPreference", "IPv4_ONLY")] })).1 = Except.ok m2 ∧
      m2.spec.egress_filter = none ∧
      m2.spec.service_discovery = some { ip_preference := some "IPv4_ONLY" } ∧
      m2.mesh_name = ceMeshEg.mesh_name ∧ m2.status = ceMeshEg.status ∧
      m2.tags = ceMeshEg.tags ∧
      m2.metadata.created_at = ceMeshEg.metadata.created_at ∧
      m2.metadata.mesh_owner = ceMeshEg.metadata.mesh_owner ∧
      m2.metadata.uid = ceMeshEg.metadata.uid :=
  update_mesh_replaces_spec ceB5 "m1" ceMeshEg none 9
    { egressFilter := none, serviceDiscovery := some [("ipPreference", "IPv4_ONLY")] } rfl

/-- Claim C6 (code bug): on the concrete store holding mesh `"meshA"` exactly
as `create_mesh` built it, `delete_mesh` neither returns a pre-call snapshot
nor removes the record: it raises `TypeError` at the
`status["status"] = "DELETED"` line (the stored status is the string
`"ACTIVE"`), and even a dict-status record would afterwards hit
`AttributeError` at `.copy()`, a method the `Mesh` dataclass does not define;
moreover the source mutates the status before copying, so the intended
snapshot would carry `DELETED`, not the pre-call status. -/
theorem delete_mesh_raises_instead_of_snapshot :
    (dictLookup demoB6.meshes "meshA").isSome = true ∧
    delete_mesh demoB6 "meshA" = (Except.error PyErr.typeError, demoB6) :=
  ⟨rfl, rfl⟩

/-- Claim C7 (counterexample): on the reachable store `demoB7`, the one
operation the claim says performs the ACTIVE → DELETED transition —
`delete_mesh` — raises `TypeError` and changes nothing, so the transition is
never performed by any operation. -/
theorem delete_mesh_performs_no_transition :
    Reachable demoB7 ∧
    (dictLookup demoB7.meshes "m2").isSome = true ∧
    delete_mesh demoB7 "m2" = (Except.error PyErr.typeError, demoB7) :=
  ⟨demoB7_reachable, rfl, rfl⟩

/-- Claim C7 (amended): every record `create_mesh` stores has status ACTIVE,
and no operation ever changes a stored status: in every reachable backend
state every stored mesh still carries the status string `"ACTIVE"`; the
ACTIVE → DELETED transition `delete_mesh` attempts always fails before
mutating, so no DELETED record ever exists and none is set back to ACTIVE. -/
theorem statuses_always_active (b : AppMeshBackend) (hb : Reachable b) :
    ∀ p ∈ b.meshes, p.2.status = StatusVal.pystr "ACTIVE" :=
  fun p hp => ((reachable_wf hb).2 p hp).2

/-- Claim C7 (witness): the amended invariant read off at the concrete
reachable state `demoB1` for its stored record. -/
theorem statuses_always_active_witness :
    demoB1Mesh.status = StatusVal.pystr "ACTIVE" :=
  statuses_always_active demoB1 demoB1_reachable ("m1", demoB1Mesh) (by decide)

/-- Claim C8: over the unmodified collection of any reachable backend and any
positive caller limit, concatenating the pages obtained by chaining
`next_token` from an absent initial token yields exactly the full collection
— no duplicates, no omissions — the chain ending on an absent `next_token`
(a `some` result of `collectPages` only arises from a terminal page). -/
theorem list_meshes_pagination_exact (b : AppMeshBackend) (l : Int)
    (hb : Reachable b) (hl : 0 < l) :
    collectAll (list_meshes b) (some l) = some (list_meshes b) := by
  have hnd := list_meshes_names_nodup (reachable_wf hb)
  have hl1 : 1 ≤ l.toNat := by omega
  have hres : resolveLimit (some l) = Except.ok l.toNat := by
    simp [resolveLimit, not_le.mpr hl]
  have hbound : (list_meshes b).length ≤ 0 + ((list_meshes b).length + 1) * l.toNat := by
    have h2 : ((list_meshes b).length + 1) * 1 ≤ ((list_meshes b).length + 1) * l.toNat :=
      Nat.mul_le_mul (Nat.le_refl _) hl1
    omega
  have hmain := collectPages_drop hnd hl1 hres ((list_meshes b).length + 1) 0 none rfl
    hbound (by omega)
  simpa using hmain

/-- Claim C8 (witness): the pagination round trip at the concrete two-mesh
reachable state `demoB2` with limit 1. -/
theorem list_meshes_pagination_exact_witness :
    (0 : Int) < 1 ∧
    collectAll (list_meshes demoB2) (some 1) = some (list_meshes demoB2) :=
  ⟨by decide, list_meshes_pagination_exact demoB2 1 demoB2_reachable (by decide)⟩

/-- Claim C9: on every reachable backend state, an operation that raises
leaves the store exactly as it was: `update_mesh` and `delete_mesh` return
the unchanged backend whenever their result is an error (`describe_mesh`
never mutates — its embedding has no state output — and `create_mesh`
cannot fail — its result type has no error case). -/
theorem failing_ops_leave_store (b : AppMeshBackend) (hb : Reachable b) :
    (∀ (now : Nat) (ct : Option String) (name : String) (sp : Option SpecRequest)
        (e : PyErr), (update_mesh b now ct name sp).1 = Except.error e →
        (update_mesh b now ct name sp).2 = b) ∧
    (∀ (name : String) (e : PyErr), (delete_mesh b name).1 = Except.error e →
        (delete_mesh b name).2 = b) := by
  constructor
  · intro now ct name sp e herr
    cases hl : dictLookup b.meshes name with
    | none => simp [update_mesh, hl]
    | some m =>
      cases sp with
      | none => simp [update_mesh, hl]
      | some sr => simp [update_mesh, hl] at herr
  · intro name e herr
    cases hl : dictLookup b.meshes name with
    | none => simp [delete_mesh, hl]
    | some m =>
      have hst : m.status = StatusVal.pystr "ACTIVE" :=
        ((reachable_wf hb).2 (name, m) (mem_of_dictLookup hl)).2
      simp [delete_mesh, hl, hst]

/-- Claim C9 (witness): the theorem at the concrete reachable state `demoB1`
for update and delete calls on the absent name `"nope"`. -/
theorem failing_ops_leave_store_witness :
    (update_mesh demoB1 9 none "nope" none).2 = demoB1 ∧
    (delete_mesh demoB1 "nope").2 = demoB1 :=
  ⟨(failing_ops_leave_store demoB1 demoB1_reachable).1 9 none "nope" none
      (PyErr.meshNotFound "nope") rfl,
    (failing_ops_leave_store demoB1 demoB1_reachable).2 "nope"
      (PyErr.meshNotFound "nope") rfl⟩

/-- Claim C10: `describe_mesh` is entirely independent of its `mesh_owner`
argument: for any backend and mesh name, any two owner values give the same
result. -/
theorem describe_mesh_ignores_owner (b : AppMeshBackend) (name o1 o2 : String) :
    describe_mesh b name o1 = describe_mesh b name o2 := rfl

end AppMesh
